import Mathlib

set_option maxHeartbeats 1000000

namespace Ekorpkit

/- Shallow embedding of omegaconf `DictConfig` values (as used by
   `ekorpkit/config.py`): finite trees of string / int / bool / None leaves
   and keyed field lists (insertion-ordered, as in Python dicts). -/

mutual
inductive CVal : Type where
  | vstr : String → CVal
  | vint : Int → CVal
  | vbool : Bool → CVal
  | vnone : CVal
  | node : Fields → CVal
deriving DecidableEq, Repr

inductive Fields : Type where
  | nil : Fields
  | cons : String → CVal → Fields → Fields
deriving DecidableEq, Repr
end

/-- Lookup of a top-level key in a field list (first occurrence). -/
def flookup (k : String) : Fields → Option CVal
  | .nil => none
  | .cons k2 v rest => if k2 = k then some v else flookup k rest

/-- Concatenation of field lists. -/
def fappend : Fields → Fields → Fields
  | .nil, gs => gs
  | .cons k v rest, gs => .cons k v (fappend rest gs)

/-- The fields of the source that are not already keys of the base
    (omegaconf merge appends such new keys after the base's keys). -/
def onlyNew : Fields → Fields → Fields
  | .nil, _ => .nil
  | .cons k v rest, bs =>
      if (flookup k bs).isSome then onlyNew rest bs
      else .cons k v (onlyNew rest bs)

mutual
/-- omegaconf-style structural merge (`eKonf.merge` / `OmegaConf.merge`):
    later source wins key-by-key, nested maps merged recursively,
    non-map values replaced. -/
def cmerge : CVal → CVal → CVal
  | .node bs, .node ss => .node (fappend (mergeFields bs ss) (onlyNew ss bs))
  | _, s => s

/-- Merge the base's fields with the source, key by key. -/
def mergeFields : Fields → Fields → Fields
  | .nil, _ => .nil
  | .cons k v rest, ss =>
      match flookup k ss with
      | some w => .cons k (cmerge v w) (mergeFields rest ss)
      | none => .cons k v (mergeFields rest ss)
end

/-- Drop the top-level fields whose key is in the exclusion list
    (the `args.pop(key, None)` loop of `save_config`). -/
def filterExcl : Fields → List String → Fields
  | .nil, _ => .nil
  | .cons k v rest, excl =>
      if k ∈ excl then filterExcl rest excl
      else .cons k v (filterExcl rest excl)

/-- Restrict a config tree to the top-level keys not in the exclusion list. -/
def restrictExclude : CVal → List String → CVal
  | .node fs, excl => .node (filterExcl fs excl)
  | c, _ => c

/-- Set a key in a field list: replace the first binding, or append. -/
def setField : Fields → String → CVal → Fields
  | .nil, k, v => .cons k v .nil
  | .cons k2 w rest, k, v =>
      if k2 = k then .cons k2 v rest else .cons k2 w (setField rest k v)

/-- Lookup of a top-level key in a config tree. -/
def flookupC (c : CVal) (k : String) : Option CVal :=
  match c with
  | .node fs => flookup k fs
  | _ => none

/-- Set a top-level key in a config tree (no-op on non-map values). -/
def setKeyC (c : CVal) (k : String) (v : CVal) : CVal :=
  match c with
  | .node fs => .node (setField fs k v)
  | c => c

/-- Set a key of a nested map (`cfg.k1.k2 = v`), no-op if `k1` is not a map. -/
def setNested (c : CVal) (k1 k2 : String) (v : CVal) : CVal :=
  match flookupC c k1 with
  | some (.node gs) => setKeyC c k1 (.node (setField gs k2 v))
  | _ => c

/-- Top-level keys of a field list. -/
def fkeys : Fields → List String
  | .nil => []
  | .cons k _ rest => k :: fkeys rest

/- ------------------------------------------------------------------ -/
/- `BaseBatchConfig` (`ekorpkit/config.py`, lines 72-169).             -/
/- ------------------------------------------------------------------ -/

/-- The raw constructor arguments of `BaseBatchConfig`, before pydantic
    validation (field defaults as declared in the source). -/
structure BatchInput where
  batch_name : String
  batch_num : Option Int := none
  output_dir : List String := ["outputs"]
  output_suffix : Option String := none
  output_extention : Option String := some ""
  random_seed : Bool := true
  seed : Option Int := none
  resume_run : Bool := false
  resume_latest : Bool := false
  config_yaml : String := "config.yaml"
  config_dirname : String := "configs"

/-- The validated `BaseBatchConfig` (state after `__init__` returned). -/
structure BaseBatchConfig where
  batch_name : String
  batch_num : Int
  output_dir : List String
  output_suffix : Option String
  output_extention : String
  random_seed : Bool
  seed : Int
  resume_latest : Bool
  config_yaml : String
  config_dirname : String
deriving DecidableEq, Repr

/-- `_validate_seed`: `random.seed(); random.randint(0, 2**32 - 1)` when
    `random_seed` is set, the seed is absent or the seed is negative;
    otherwise the given seed verbatim.  `randDraw` stands for the value the
    library call `random.randint(0, 2**32 - 1)` returned. -/
def validate_seed (random_seed : Bool) (v : Option Int) (randDraw : Nat) : Int :=
  if random_seed || v.isNone || v.getD 0 < 0 then (randDraw : Int) else v.getD 0

/-- Python `str.strip(".")`: remove every leading and trailing dot. -/
def stripDots (s : String) : String :=
  ⟨((s.toList.dropWhile (· == '.')).reverse.dropWhile (· == '.')).reverse⟩

/-- Python truthiness of an optional string (`None` and `""` are falsy). -/
def pyTruthyS (v : Option String) : Bool :=
  match v with
  | none => false
  | some s => !(s == "")

/-- `_validate_output_extention`: `v.strip(".") if v else ""`. -/
def validate_output_extention (v : Option String) : String :=
  if pyTruthyS v then stripDots (v.getD "") else ""

/-- Whether a filename matches the glob `config_filepattern`, i.e.
    `"{batch_name}(*)_{config_yaml}"` with `*` matching any (possibly
    empty) character sequence. -/
def globConfigMatch (batch_name config_yaml fname : String) : Bool :=
  let pre := batch_name ++ "("
  let suf := ")_" ++ config_yaml
  decide (pre.length + suf.length ≤ fname.length) &&
    (fname.take pre.length == pre) && (fname.takeRight suf.length == suf)

/-- `len(list(self.config_dir.glob(self.config_filepattern)))`: the number
    of files of the config directory matching the pattern. -/
def countConfigFiles (batch_name config_yaml : String) (dirFiles : List String) : Nat :=
  (dirFiles.filter (globConfigMatch batch_name config_yaml)).length

/-- `init_batch_num`: when `batch_num` is unset, derive it from the number
    of matching persisted config files (`num_files - 1` when
    `resume_latest`, else `num_files`); Python ints are unbounded, so the
    result is an integer (it can be `-1`). -/
def init_batch_num (batch_num : Option Int) (num_files : Nat) (resume_latest : Bool) : Int :=
  match batch_num with
  | some b => b
  | none => if resume_latest then (num_files : Int) - 1 else (num_files : Int)

/-- `BaseBatchConfig.__init__`: run the pydantic validators, then
    `init_batch_num`.  `dirFiles` is the listing of the config directory,
    `randDraw` the value returned by `random.randint(0, 2**32 - 1)`. -/
def mkBaseBatchConfig (inp : BatchInput) (dirFiles : List String) (randDraw : Nat) :
    BaseBatchConfig :=
  { batch_name := inp.batch_name
    batch_num := init_batch_num inp.batch_num
      (countConfigFiles inp.batch_name inp.config_yaml dirFiles) inp.resume_latest
    output_dir := inp.output_dir
    output_suffix := inp.output_suffix
    output_extention := validate_output_extention inp.output_extention
    random_seed := inp.random_seed
    seed := validate_seed inp.random_seed inp.seed randDraw
    resume_latest := inp.resume_latest
    config_yaml := inp.config_yaml
    config_dirname := inp.config_dirname }

/-- `file_prefix` property: `f"{batch_name}({batch_num})"`. -/
def filePfx (b : BaseBatchConfig) : String :=
  b.batch_name ++ "(" ++ toString b.batch_num ++ ")"

/-- `output_file` property: suffix inserted when truthy, then a dot and
    the (already stripped) extension. -/
def BaseBatchConfig.output_file (b : BaseBatchConfig) : String :=
  if pyTruthyS b.output_suffix then
    filePfx b ++ "_" ++ b.output_suffix.getD "" ++ "." ++ b.output_extention
  else
    filePfx b ++ "." ++ b.output_extention

/-- `config_filename` property: `f"{file_prefix}_{config_yaml}"`. -/
def BaseBatchConfig.config_filename (b : BaseBatchConfig) : String :=
  filePfx b ++ "_" ++ b.config_yaml

/- ------------------------------------------------------------------ -/
/- Paths and the filesystem effect of directory resolution             -/
/- (`PathConfig`, lines 22-69, and the `batch_dir`/`config_dir`        -/
/- properties of `BaseBatchConfig`, lines 128-138).                    -/
/- ------------------------------------------------------------------ -/

/-- A filesystem is the list of directories that exist; a directory is a
    path, i.e. a list of segments. -/
abbrev FS := List (List String)

/-- Record a single directory as existing (`mkdir` of one level,
    `exist_ok=True`). -/
def addPath (fs : FS) (p : List String) : FS :=
  if p ∈ fs then fs else fs ++ [p]

/-- All the ancestors of a path, shortest first, the path itself last. -/
def pathAncestors (p : List String) : List (List String) :=
  (List.range (p.length + 1)).map (fun n => p.take n)

/-- `Path.mkdir(parents=True, exist_ok=True)`: create the directory and
    every missing ancestor. -/
def mkdirParents (fs : FS) (p : List String) : FS :=
  (pathAncestors p).foldl addPath fs

/-- `PathConfig` (the fields its derived paths depend on). -/
structure PathConfigM where
  task_name : String
  root : String
  batch_name : String
deriving DecidableEq, Repr

/-- `PathConfig.output_dir` property: `root_dir / "outputs"`. -/
def PathConfigM.output_dir (p : PathConfigM) : List String :=
  [p.root, "outputs"]

/-- `PathConfig.batch_dir` property: `output_dir / batch_name`. -/
def PathConfigM.batch_dir (p : PathConfigM) : List String :=
  [p.root, "outputs", p.batch_name]

/-- `PathConfig.batch_dir` as an operation on the filesystem: the source
    property only computes the path, it performs no directory creation. -/
def PathConfigM.batch_dirFS (p : PathConfigM) (fs : FS) : List String × FS :=
  (PathConfigM.batch_dir p, fs)

/-- `BaseBatchConfig.batch_dir` property: `output_dir / batch_name`, with
    `mkdir(parents=True, exist_ok=True)` before returning. -/
def BaseBatchConfig.batch_dirFS (b : BaseBatchConfig) (fs : FS) : List String × FS :=
  let d := b.output_dir ++ [b.batch_name]
  (d, mkdirParents fs d)

/-- `BaseBatchConfig.config_dir` property: resolves `batch_dir` (which
    creates it), then creates `batch_dir / config_dirname`. -/
def BaseBatchConfig.config_dirFS (b : BaseBatchConfig) (fs : FS) : List String × FS :=
  let bd := BaseBatchConfig.batch_dirFS b fs
  let d := bd.1 ++ [b.config_dirname]
  (d, mkdirParents bd.2 d)

/- ------------------------------------------------------------------ -/
/- `DatasetBuilder._process_split` (`ekorpkit/io/fetch/build.py`,      -/
/- lines 94-169).                                                      -/
/- ------------------------------------------------------------------ -/

/-- An opaque dataframe (this layer only passes tables through). -/
structure DF where
  val : Nat
deriving DecidableEq, Repr

/-- The observable actions `_process_split` can take, in order. -/
inductive Ev : Type where
  | loaderInvoked
  | reloadedOutput
  | transformApplied
  | statsInit
  | processApplied
  | statsCalc
deriving DecidableEq, Repr

/-- The builder flags read by `_process_split` (`fetch` args plus which
    persistence pipes appear in `pipeline_args`). -/
structure BuilderCfg where
  overwrite : Bool
  calculate_stats : Bool
  preprocess_text : Bool
  has_summary_info : Bool
  transform_nonempty : Bool
  process_nonempty : Bool
  save_metadata_in_args : Bool
  save_samples_in_args : Bool
  save_dataframe_in_args : Bool
deriving DecidableEq, Repr

/-- The per-split environment: whether the split's target output file
    already exists, what the external loader would yield, and what
    reloading the existing output file would yield. -/
structure SplitCase where
  output_file_exists : Bool
  loaderResult : Option DF
  reloadResult : DF
deriving DecidableEq, Repr

/-- The tail of `_process_split` from `if df is None: return None`
    onwards: process pipeline, then statistics. -/
def finishSplit (cfg : BuilderCfg) (process_eff : Bool) (evs : List Ev)
    (df : Option DF) (pf : DF → DF) : List Ev × Option String :=
  match df with
  | none => (evs, none)
  | some df =>
    let step : List Ev × DF :=
      if process_eff then (evs ++ [Ev.processApplied], pf df) else (evs, df)
    let evs := if cfg.calculate_stats && cfg.has_summary_info then
        step.1 ++ [Ev.statsCalc] else step.1
    (evs, none)

/-- `_process_split`: the trace of actions taken for one split and the
    error message when it raises (`ValueError("dataframe is None")`).
    `tf` and `pf` are the transform and process pipelines. -/
def processSplit (cfg : BuilderCfg) (sc : SplitCase) (tf pf : DF → DF) :
    List Ev × Option String :=
  let transform_eff := cfg.transform_nonempty || cfg.save_metadata_in_args
  let process_eff := cfg.process_nonempty || cfg.save_samples_in_args
      || cfg.save_dataframe_in_args
  if !sc.output_file_exists || cfg.overwrite then
    match sc.loaderResult with
    | none => ([Ev.loaderInvoked], some "dataframe is None")
    | some df =>
      let step : List Ev × DF :=
        if transform_eff then ([Ev.loaderInvoked, Ev.transformApplied], tf df)
        else ([Ev.loaderInvoked], df)
      let evs := if cfg.has_summary_info && cfg.calculate_stats then
          step.1 ++ [Ev.statsInit] else step.1
      finishSplit cfg process_eff evs (some step.2) pf
  else
    if cfg.calculate_stats || cfg.preprocess_text then
      finishSplit cfg process_eff [Ev.reloadedOutput] (some sc.reloadResult) pf
    else
      finishSplit cfg process_eff [] none pf

/- ------------------------------------------------------------------ -/
/- `Dataset.load` (`ekorpkit/datasets/dataset.py`, lines 93-102).      -/
/- ------------------------------------------------------------------ -/

/-- The mutable state of a `Dataset`: the loaded splits and the
    `_loaded` flag. -/
structure DatasetState where
  splits : List (String × DF)
  loadedFlag : Bool
deriving DecidableEq, Repr

/-- `self.splits[split] = df` on a Python dict. -/
def putSplit (splits : List (String × DF)) (k : String) (df : DF) :
    List (String × DF) :=
  match splits with
  | [] => [(k, df)]
  | (k2, w) :: rest =>
      if k2 = k then (k2, df) :: rest else (k2, w) :: putSplit rest k df

/-- `Dataset.load`: a no-op when `_loaded` is set; otherwise read every
    declared data file (through `process_pipeline` when non-empty), store
    the splits and set `_loaded`.  Returns the new state and the number of
    underlying `load_dataframe` reads performed. -/
def datasetLoad (st : DatasetState) (data_files : List (String × String))
    (readF : String → DF) (procNonempty : Bool) (proc : DF → DF) :
    DatasetState × Nat :=
  if st.loadedFlag then (st, 0)
  else
    let splits := data_files.foldl
      (fun acc sf =>
        let df := readF sf.2
        let df := if procNonempty then proc df else df
        putSplit acc sf.1 df)
      st.splits
    ({ splits := splits, loadedFlag := true }, data_files.length)

/- ------------------------------------------------------------------ -/
/- `BaseBatchModel` (`ekorpkit/config.py`, lines 172-434): the live     -/
/- `_config_` tree, the `_initial_config_` baseline, and the            -/
/- `save_config` / `load_config` operations with their property-setter  -/
/- cascades.                                                            -/
/- ------------------------------------------------------------------ -/

mutual
/-- Modelled from the spec: `DictConfig.copy` (`_initial_config_ =
    args.copy()`) together with `eKonf.merge` returning fresh trees are
    not under `src/`; the spec states the baseline is "a retained deep
    copy" and that "`load` never mutates the baseline", so copying is
    embedded as a structural deep copy. -/
def deepCopy : CVal → CVal
  | .vstr s => .vstr s
  | .vint n => .vint n
  | .vbool b => .vbool b
  | .vnone => .vnone
  | .node fs => .node (deepCopyF fs)

/-- Deep copy of a field list. -/
def deepCopyF : Fields → Fields
  | .nil => .nil
  | .cons k v rest => .cons k (deepCopy v) (deepCopyF rest)
end

/-- The state of a `BaseBatchModel` that the claims are about: the live
    `_config_` tree, the retained `_initial_config_` baseline, and the
    identity fields of the owned `BaseBatchConfig`. -/
structure ModelState where
  config : CVal
  initial_config : CVal
  batch_name : String
  batch_num : Option Int
deriving DecidableEq, Repr

/-- The default `Config.exclude` set of `BaseBatchModel`. -/
def defaultExclude : List String :=
  ["_config_", "_initial_config_", "__data__", "path", "module",
   "secret", "auto", "project"]

/-- `save_config()` with neither `include` nor `exclude` supplied: the
    structured document written to `config_filepath` is the live tree
    with the default exclude set popped at top level. -/
def save_config (st : ModelState) : CVal :=
  restrictExclude st.config defaultExclude

/-- `config.path.root` read as a string (empty when absent). -/
def pathRootOf (c : CVal) : String :=
  match flookupC c "path" with
  | some (.node ps) =>
      match flookup "root" ps with
      | some (.vstr r) => r
      | _ => ""
  | _ => ""

/-- The fields of `config.batch` (empty when absent or not a map). -/
def batchNodeOf (c : CVal) : Fields :=
  match flookupC c "batch" with
  | some (.node gs) => gs
  | _ => .nil

/-- `batch_num` as pydantic reads it from a field list. -/
def getOBatchNum (gs : Fields) : Option Int :=
  match flookup "batch_num" gs with
  | some (.vint n) => some n
  | _ => none

/-- `batch_name` as pydantic reads it from a field list. -/
def getBatchNameF (gs : Fields) : String :=
  match flookup "batch_name" gs with
  | some (.vstr s) => s
  | _ => ""

/-- `resume_latest` as pydantic reads it (field default `False`). -/
def getResumeLatestF (gs : Fields) : Bool :=
  match flookup "resume_latest" gs with
  | some (.vbool b) => b
  | _ => false

/-- `config_yaml` as pydantic reads it (field default `"config.yaml"`). -/
def getConfigYamlF (gs : Fields) : String :=
  match flookup "config_yaml" gs with
  | some (.vstr s) => s
  | _ => "config.yaml"

/-- An optional batch number as the tree value `set_batch_num` writes. -/
def ovalInt (v : Option Int) : CVal :=
  match v with
  | some n => .vint n
  | none => .vnone

/-- `initialize_configs` on the tree: `set_root_dir` (composing a default
    `path` when absent — `composedPath` stands for that composition, which
    is modelled from the spec since `eKonf.compose` is not under `src/`),
    the `set_output_dir` patch of `config.batch.output_dir`, the rebuild
    `self.batch = BaseBatchConfig(**self.config.batch)` (re-deriving
    `batch_num` from the config-file count when it is `None`), and the
    final `set_batch_num` patch.  Returns the new tree, the batch name and
    the derived batch number. -/
def pathPatched (c : CVal) (composedPath : CVal) : CVal :=
  if (flookupC c "path").isSome then c else setKeyC c "path" composedPath

def outputDirPatched (c : CVal) : CVal :=
  setNested c "batch" "output_dir" (.vstr (pathRootOf c ++ "/outputs"))

def initializeConfigs (c : CVal) (composedPath : CVal) (dirFiles : List String) :
    CVal × String × Int :=
  let c1 := outputDirPatched (pathPatched c composedPath)
  let gs := batchNodeOf c1
  let nm := getBatchNameF gs
  let derived := init_batch_num (getOBatchNum gs)
      (countConfigFiles nm (getConfigYamlF gs) dirFiles) (getResumeLatestF gs)
  (setNested c1 "batch" "batch_num" (.vint derived), nm, derived)

/-- `load_config(batch_name, batch_num, **args)`.  `fileLookup` reads the
    persisted structured document for a `(batch_name, batch_num)` pair
    (`eKonf.load` on `config_filepath` when `is_file()`), `args` is the
    caller-override tree, `dirFiles` the config-directory listing.  The
    sequence follows the source: choose the starting tree (baseline when
    `batch_num` is given, live tree otherwise), merge the persisted file
    when found (clearing the requested number when not), merge the
    overrides, then run the `set_batch_num` / `set_batch_name` cascades,
    which re-run `initialize_configs`. -/
def load_config (st : ModelState) (batch_name_arg : Option String)
    (batch_num_arg : Option Int) (fileLookup : String → Int → Option CVal)
    (args : CVal) (composedPath : CVal) (dirFiles : List String) : ModelState :=
  let name := batch_name_arg.getD st.batch_name
  let start : CVal × Option Int :=
    match batch_num_arg with
    | some bn =>
      match fileLookup name bn with
      | some fileCfg => (cmerge st.initial_config fileCfg, some bn)
      | none => (st.initial_config, none)
    | none => (st.config, none)
  let c1 := cmerge start.1 args
  let c2 := setNested c1 "batch" "batch_num" (ovalInt start.2)
  let c3 := setNested c2 "batch" "batch_name" (.vstr name)
  let c4 := setKeyC c3 "name" (.vstr name)
  let ic := initializeConfigs c4 composedPath dirFiles
  { config := ic.1
    initial_config := st.initial_config
    batch_name := name
    batch_num := some ic.2.2 }

/-- `BaseBatchModel.__init__`: retain the merged arguments as the live
    tree, retain a copy as the baseline, then `initialize_configs`. -/
def mkModelState (args : CVal) (composedPath : CVal) (dirFiles : List String) :
    ModelState :=
  let ic := initializeConfigs args composedPath dirFiles
  { config := ic.1
    initial_config := deepCopy args
    batch_name := ic.2.1
    batch_num := some ic.2.2 }

/-- An arbitrary ad-hoc mutation of the live tree (the baseline is a deep
    copy, so a live-tree mutation reaches only the `config` field). -/
def mutateConfig (st : ModelState) (f : CVal → CVal) : ModelState :=
  { st with config := f st.config }

/- ------------------------------------------------------------------ -/
/- Lemmas about field lists, merging and restriction.                  -/
/- ------------------------------------------------------------------ -/

theorem flookup_setField_self : (gs : Fields) → (k : String) → (v : CVal) →
    flookup k (setField gs k v) = some v
  | .nil, k, v => by simp [setField, flookup]
  | .cons k2 w rest, k, v => by
    by_cases h : k2 = k <;>
      simp [setField, flookup, h, flookup_setField_self rest k v]

theorem flookup_setField_ne : (gs : Fields) → {k k2 : String} → (v : CVal) →
    k ≠ k2 → flookup k (setField gs k2 v) = flookup k gs
  | .nil, k, k2, v, h => by simp [setField, flookup, Ne.symm h]
  | .cons k3 w rest, k, k2, v, h => by
    by_cases h3 : k3 = k2
    · subst h3
      simp [setField, flookup, Ne.symm h]
    · simp only [setField, if_neg h3, flookup]
      by_cases hk : k3 = k <;> simp [hk, flookup_setField_ne rest v h]

theorem setField_eq_of_flookup : {gs : Fields} → {k : String} → {v : CVal} →
    flookup k gs = some v → setField gs k v = gs
  | .nil, k, v, h => by simp [flookup] at h
  | .cons k2 w rest, k, v, h => by
    by_cases h2 : k2 = k
    · subst h2
      simp [flookup] at h
      simp [setField, h]
    · simp only [flookup, if_neg h2] at h
      simp [setField, h2, setField_eq_of_flookup h]

theorem flookup_eq_none_of_not_mem_fkeys : {gs : Fields} → {k : String} →
    k ∉ fkeys gs → flookup k gs = none
  | .nil, k, _ => rfl
  | .cons k2 w rest, k, h => by
    simp [fkeys] at h
    simp [flookup, Ne.symm h.1, flookup_eq_none_of_not_mem_fkeys h.2]

theorem flookup_fappend : (k : String) → (xs ys : Fields) →
    flookup k (fappend xs ys) =
      (match flookup k xs with
      | some v => some v
      | none => flookup k ys)
  | k, .nil, ys => by simp [fappend, flookup]
  | k, .cons k2 w rest, ys => by
    by_cases h : k2 = k <;> simp [fappend, flookup, h, flookup_fappend k rest ys]

theorem fappend_nil : (xs : Fields) → fappend xs .nil = xs
  | .nil => rfl
  | .cons k v rest => by simp [fappend, fappend_nil rest]

theorem mergeFields_nil : (bs : Fields) → mergeFields bs .nil = bs
  | .nil => rfl
  | .cons k v rest => by simp [mergeFields, flookup, mergeFields_nil rest]

theorem onlyNew_nil_right : (ss : Fields) → onlyNew ss .nil = ss
  | .nil => rfl
  | .cons k v rest => by simp [onlyNew, flookup, onlyNew_nil_right rest]

theorem cmerge_node_nil (bs : Fields) :
    cmerge (.node bs) (.node .nil) = .node bs := by
  simp [cmerge, mergeFields_nil, onlyNew, fappend_nil]

theorem cmerge_vint (x : CVal) (n : Int) : cmerge x (.vint n) = .vint n := by
  cases x <;> rfl

theorem cmerge_vstr (x : CVal) (s : String) : cmerge x (.vstr s) = .vstr s := by
  cases x <;> rfl

theorem flookup_onlyNew_cons_ne : {k k2 : String} → (ss rest : Fields) →
    (v : CVal) → k ≠ k2 →
    flookup k (onlyNew ss (.cons k2 v rest)) = flookup k (onlyNew ss rest)
  | k, k2, .nil, rest, v, h => rfl
  | k, k2, .cons k3 w tail, rest, v, h => by
    have ih := flookup_onlyNew_cons_ne tail rest v h
    by_cases h3 : k2 = k3
    · subst h3
      by_cases hs : (flookup k2 rest).isSome <;>
        simp [onlyNew, flookup, hs, Ne.symm h, ih]
    · by_cases hs : (flookup k3 rest).isSome
      · simp [onlyNew, flookup, h3, hs, ih]
      · by_cases hk : k3 = k
        · subst hk
          simp [onlyNew, flookup, h3, hs, Ne.symm h, ih]
        · simp [onlyNew, flookup, h3, hs, hk, Ne.symm h, ih]

/-- The key lookup of an omegaconf merge: base value merged with the
    source value when both bind the key, the surviving value otherwise. -/
theorem flookup_merge_combined : (k : String) → (bs ss : Fields) →
    flookup k (fappend (mergeFields bs ss) (onlyNew ss bs)) =
      (match flookup k bs, flookup k ss with
      | some bv, some sv => some (cmerge bv sv)
      | some bv, none => some bv
      | none, sv => sv)
  | k, .nil, ss => by
    simp [mergeFields, fappend, flookup, onlyNew_nil_right]
  | k, .cons k2 v rest, ss => by
    have ih := flookup_merge_combined k rest ss
    by_cases h : k2 = k
    · subst h
      cases hss : flookup k2 ss <;>
        simp [mergeFields, hss, fappend, flookup]
    · cases hss : flookup k2 ss <;>
        simp only [mergeFields, hss, fappend, flookup, if_neg h] <;>
        rw [flookup_fappend] at ih ⊢ <;>
        rw [flookup_onlyNew_cons_ne _ _ _ (fun e => h e.symm)] <;>
        simpa [flookup, if_neg h] using ih

theorem flookup_filterExcl : {k : String} → (fs : Fields) → {excl : List String} →
    k ∉ excl → flookup k (filterExcl fs excl) = flookup k fs
  | k, .nil, excl, h => rfl
  | k, .cons k2 v rest, excl, h => by
    have ih := flookup_filterExcl rest h
    by_cases h2 : k2 ∈ excl
    · have hne : ¬k2 = k := fun e => h (e ▸ h2)
      simp [filterExcl, flookup, h2, hne, ih]
    · by_cases hk : k2 = k <;> simp [filterExcl, flookup, h, h2, hk, ih]

theorem filterExcl_fappend : (xs ys : Fields) → (excl : List String) →
    filterExcl (fappend xs ys) excl =
      fappend (filterExcl xs excl) (filterExcl ys excl)
  | .nil, ys, excl => rfl
  | .cons k v rest, ys, excl => by
    by_cases h : k ∈ excl <;>
      simp [filterExcl, fappend, h, filterExcl_fappend rest ys excl]

theorem filterExcl_mergeFields : (bs ss : Fields) → (excl : List String) →
    filterExcl (mergeFields bs ss) excl =
      mergeFields (filterExcl bs excl) ss
  | .nil, ss, excl => rfl
  | .cons k v rest, ss, excl => by
    have ih := filterExcl_mergeFields rest ss excl
    cases hss : flookup k ss <;> by_cases h : k ∈ excl <;>
      simp [mergeFields, filterExcl, hss, h, ih]

theorem fkeys_filterExcl_not_mem : {k : String} → (fs : Fields) →
    (excl : List String) → k ∈ fkeys (filterExcl fs excl) → k ∉ excl
  | k, .nil, excl, h => by simp [filterExcl, fkeys] at h
  | k, .cons k2 v rest, excl, h => by
    by_cases h2 : k2 ∈ excl
    · exact fkeys_filterExcl_not_mem rest excl (by simpa [filterExcl, h2] using h)
    · simp only [filterExcl, if_neg h2, fkeys, List.mem_cons] at h
      rcases h with h | h
      · exact h ▸ h2
      · exact fkeys_filterExcl_not_mem rest excl h

theorem filterExcl_onlyNew : (ss bs : Fields) → (excl : List String) →
    (∀ k ∈ fkeys ss, k ∉ excl) →
    filterExcl (onlyNew ss bs) excl = onlyNew ss bs
  | .nil, bs, excl, h => rfl
  | .cons k v rest, bs, excl, h => by
    have hk : k ∉ excl := h k (by simp [fkeys])
    have ih := filterExcl_onlyNew rest bs excl
      (fun k2 hk2 => h k2 (by simp [fkeys, hk2]))
    by_cases hs : (flookup k bs).isSome <;>
      simp [onlyNew, filterExcl, hs, hk, ih]

theorem onlyNew_filterExcl : (ss bs : Fields) → (excl : List String) →
    (∀ k ∈ fkeys ss, k ∉ excl) →
    onlyNew ss (filterExcl bs excl) = onlyNew ss bs
  | .nil, bs, excl, h => rfl
  | .cons k v rest, bs, excl, h => by
    have hk : k ∉ excl := h k (by simp [fkeys])
    have ih := onlyNew_filterExcl rest bs excl
      (fun k2 hk2 => h k2 (by simp [fkeys, hk2]))
    rw [onlyNew, onlyNew, flookup_filterExcl bs hk, ih]

/-- Restriction to non-excluded top-level keys commutes over a merge whose
    source carries no excluded keys. -/
theorem restrict_merge (bs ss : Fields) (excl : List String)
    (h : ∀ k ∈ fkeys ss, k ∉ excl) :
    restrictExclude (cmerge (.node bs) (.node ss)) excl =
      cmerge (restrictExclude (.node bs) excl) (.node ss) := by
  simp only [cmerge, restrictExclude]
  rw [filterExcl_fappend, filterExcl_mergeFields, filterExcl_onlyNew _ _ _ h,
    onlyNew_filterExcl _ _ _ h]

theorem flookupC_setKeyC_ne (c : CVal) {k k2 : String} (v : CVal)
    (h : k ≠ k2) : flookupC (setKeyC c k2 v) k = flookupC c k := by
  cases c <;> simp [setKeyC, flookupC, flookup_setField_ne _ _ h]

theorem flookupC_setKeyC_self (fs : Fields) (k : String) (v : CVal) :
    flookupC (setKeyC (.node fs) k v) k = some v := by
  simp [setKeyC, flookupC, flookup_setField_self]

theorem setKeyC_self {c : CVal} {k : String} {v : CVal}
    (h : flookupC c k = some v) : setKeyC c k v = c := by
  cases c <;> simp_all [flookupC, setKeyC]
  exact setField_eq_of_flookup h

theorem flookupC_setNested_ne (c : CVal) {k k1 : String} (k2 : String)
    (v : CVal) (h : k ≠ k1) :
    flookupC (setNested c k1 k2 v) k = flookupC c k := by
  unfold setNested
  cases hc : flookupC c k1 with
  | none => rfl
  | some w =>
    cases w <;> simp [flookupC_setKeyC_ne _ _ h]

theorem flookupC_setNested_self {c : CVal} {k1 : String} (k2 : String)
    (v : CVal) {gs : Fields} (h : flookupC c k1 = some (.node gs)) :
    flookupC (setNested c k1 k2 v) k1 = some (.node (setField gs k2 v)) := by
  unfold setNested
  rw [h]
  cases c with
  | node fs => exact flookupC_setKeyC_self fs k1 _
  | vstr s => simp [flookupC] at h
  | vint n => simp [flookupC] at h
  | vbool b => simp [flookupC] at h
  | vnone => simp [flookupC] at h

theorem setNested_self {c : CVal} {k1 k2 : String} {v : CVal} {gs : Fields}
    (h : flookupC c k1 = some (.node gs)) (h2 : flookup k2 gs = some v) :
    setNested c k1 k2 v = c := by
  unfold setNested
  rw [h]
  show setKeyC c k1 (.node (setField gs k2 v)) = c
  rw [setField_eq_of_flookup h2, setKeyC_self h]

mutual
theorem deepCopy_eq : (c : CVal) → deepCopy c = c
  | .vstr s => rfl
  | .vint n => rfl
  | .vbool b => rfl
  | .vnone => rfl
  | .node fs => by rw [deepCopy, deepCopyF_eq fs]

theorem deepCopyF_eq : (fs : Fields) → deepCopyF fs = fs
  | .nil => rfl
  | .cons k v rest => by rw [deepCopyF, deepCopy_eq v, deepCopyF_eq rest]
end

/-- When the merge source binds `k` to a value that replaces anything it is
    merged onto (any non-map leaf), the merged tree binds `k` to it. -/
theorem flookupC_merge_right_leaf {bs ss : Fields} {k : String} {v : CVal}
    (hss : flookup k ss = some v) (hrepl : ∀ x, cmerge x v = v) :
    flookupC (cmerge (.node bs) (.node ss)) k = some v := by
  simp only [cmerge, flookupC]
  rw [flookup_merge_combined, hss]
  cases hbs : flookup k bs <;> simp [hrepl]

/-- When the merge source does not bind `k`, the base's binding survives. -/
theorem flookupC_merge_right_none {bs ss : Fields} {k : String}
    (hss : flookup k ss = none) :
    flookupC (cmerge (.node bs) (.node ss)) k = flookup k bs := by
  simp only [cmerge, flookupC]
  rw [flookup_merge_combined, hss]
  cases hbs : flookup k bs <;> simp

/-- The map the merge binds at `k1` when the source binds a map there: it
    exists, and every replacing (leaf) binding of the source's map
    survives in it. -/
theorem lookup_batch_merge {bs ss gs_s : Fields} {k1 : String}
    (hb : flookup k1 ss = some (.node gs_s)) :
    ∃ gsM, flookupC (cmerge (.node bs) (.node ss)) k1 = some (.node gsM)
      ∧ ∀ k v, flookup k gs_s = some v → (∀ x, cmerge x v = v) →
          flookup k gsM = some v := by
  simp only [cmerge, flookupC]
  rw [flookup_merge_combined, hb]
  cases hbs : flookup k1 bs with
  | none => exact ⟨gs_s, rfl, fun k v hv _ => hv⟩
  | some bv =>
    cases bv with
    | node bgs =>
      refine ⟨fappend (mergeFields bgs gs_s) (onlyNew gs_s bgs), rfl,
        fun k v hv hrepl => ?_⟩
      rw [flookup_merge_combined, hv]
      cases hbb : flookup k bgs <;> simp [hrepl]
    | vstr s => exact ⟨gs_s, rfl, fun k v hv _ => hv⟩
    | vint n => exact ⟨gs_s, rfl, fun k v hv _ => hv⟩
    | vbool b => exact ⟨gs_s, rfl, fun k v hv _ => hv⟩
    | vnone => exact ⟨gs_s, rfl, fun k v hv _ => hv⟩

/- ------------------------------------------------------------------ -/
/- Lemmas about the filesystem model.                                  -/
/- ------------------------------------------------------------------ -/

theorem mem_addPath_self (fs : FS) (p : List String) : p ∈ addPath fs p := by
  unfold addPath
  by_cases h : p ∈ fs <;> simp [h]

theorem mem_addPath_of_mem {fs : FS} {q : List String} (p : List String)
    (h : q ∈ fs) : q ∈ addPath fs p := by
  unfold addPath
  by_cases h2 : p ∈ fs <;> simp [h2, h]

theorem mem_foldl_addPath_of_mem {fs : FS} {q : List String}
    (l : List (List String)) (h : q ∈ fs) : q ∈ l.foldl addPath fs := by
  induction l generalizing fs with
  | nil => exact h
  | cons p rest ih => exact ih (mem_addPath_of_mem p h)

theorem mem_foldl_addPath_of_mem_list {q : List String}
    {l : List (List String)} (fs : FS) (h : q ∈ l) : q ∈ l.foldl addPath fs := by
  induction l generalizing fs with
  | nil => simp at h
  | cons p rest ih =>
    rcases List.mem_cons.mp h with h | h
    · subst h
      exact mem_foldl_addPath_of_mem rest (mem_addPath_self fs q)
    · exact ih _ h

theorem addPath_of_mem {fs : FS} {p : List String} (h : p ∈ fs) :
    addPath fs p = fs := by
  unfold addPath
  simp [h]

theorem foldl_addPath_of_all_mem : (l : List (List String)) → (fs : FS) →
    (∀ q ∈ l, q ∈ fs) → l.foldl addPath fs = fs
  | [], fs, h => rfl
  | p :: rest, fs, h => by
    rw [List.foldl_cons, addPath_of_mem (h p (by simp)),
      foldl_addPath_of_all_mem rest fs (fun q hq => h q (by simp [hq]))]

theorem self_mem_pathAncestors (p : List String) : p ∈ pathAncestors p := by
  unfold pathAncestors
  exact List.mem_map.mpr ⟨p.length, by simp, by simp⟩

theorem mem_mkdirParents_self (fs : FS) (p : List String) :
    p ∈ mkdirParents fs p :=
  mem_foldl_addPath_of_mem_list fs (self_mem_pathAncestors p)

theorem mem_mkdirParents_of_mem {fs : FS} {q : List String} (p : List String)
    (h : q ∈ fs) : q ∈ mkdirParents fs p :=
  mem_foldl_addPath_of_mem _ h

theorem ancestors_mem_mkdirParents (fs : FS) (p : List String) :
    ∀ q ∈ pathAncestors p, q ∈ mkdirParents fs p :=
  fun _ hq => mem_foldl_addPath_of_mem_list fs hq

theorem mkdirParents_of_all_mem {fs : FS} {p : List String}
    (h : ∀ q ∈ pathAncestors p, q ∈ fs) : mkdirParents fs p = fs :=
  foldl_addPath_of_all_mem _ _ h

theorem mkdirParents_idem (fs : FS) (p : List String) :
    mkdirParents (mkdirParents fs p) p = mkdirParents fs p :=
  mkdirParents_of_all_mem (ancestors_mem_mkdirParents fs p)

theorem pathAncestors_append_one {q : List String} (p : List String)
    (x : String) (hq : q ∈ pathAncestors p) : q ∈ pathAncestors (p ++ [x]) := by
  unfold pathAncestors at hq ⊢
  rcases List.mem_map.mp hq with ⟨n, hn, rfl⟩
  simp only [List.mem_range] at hn
  refine List.mem_map.mpr ⟨n, by simp; omega, ?_⟩
  rw [List.take_append_of_le_length (by omega)]

/- ------------------------------------------------------------------ -/
/- Lemmas about `initializeConfigs` and its patches.                   -/
/- ------------------------------------------------------------------ -/

theorem flookupC_pathPatched_ne (c composedPath : CVal) {k : String}
    (h : k ≠ "path") : flookupC (pathPatched c composedPath) k = flookupC c k := by
  unfold pathPatched
  by_cases hp : (flookupC c "path").isSome
  · simp [hp]
  · simp [hp, flookupC_setKeyC_ne c composedPath h]

theorem batchNodeOf_outputDirPatched {c : CVal} {gs : Fields}
    (hb : flookupC c "batch" = some (.node gs)) :
    batchNodeOf (outputDirPatched c) =
      setField gs "output_dir" (.vstr (pathRootOf c ++ "/outputs")) := by
  unfold batchNodeOf outputDirPatched
  rw [flookupC_setNested_self _ _ hb]

theorem flookupC_outputDirPatched_ne (c : CVal) {k : String} (h : k ≠ "batch") :
    flookupC (outputDirPatched c) k = flookupC c k :=
  flookupC_setNested_ne _ _ _ h

theorem getOBatchNum_setField_ne (gs : Fields) {k : String} (v : CVal)
    (h : k ≠ "batch_num") : getOBatchNum (setField gs k v) = getOBatchNum gs := by
  unfold getOBatchNum
  rw [flookup_setField_ne _ _ (Ne.symm h)]

theorem getBatchNameF_setField_ne (gs : Fields) {k : String} (v : CVal)
    (h : k ≠ "batch_name") : getBatchNameF (setField gs k v) = getBatchNameF gs := by
  unfold getBatchNameF
  rw [flookup_setField_ne _ _ (Ne.symm h)]

theorem getResumeLatestF_setField_ne (gs : Fields) {k : String} (v : CVal)
    (h : k ≠ "resume_latest") :
    getResumeLatestF (setField gs k v) = getResumeLatestF gs := by
  unfold getResumeLatestF
  rw [flookup_setField_ne _ _ (Ne.symm h)]

theorem getConfigYamlF_setField_ne (gs : Fields) {k : String} (v : CVal)
    (h : k ≠ "config_yaml") :
    getConfigYamlF (setField gs k v) = getConfigYamlF gs := by
  unfold getConfigYamlF
  rw [flookup_setField_ne _ _ (Ne.symm h)]

/-- What `initialize_configs` computes when the tree has a batch map:
    the `output_dir` patch does not disturb the fields the rebuilt
    `BaseBatchConfig` reads, so the derived batch number comes from the
    batch map's own `batch_num` / `batch_name` / `resume_latest` /
    `config_yaml` entries and the config-file count. -/
theorem initializeConfigs_parts {c : CVal} {gs : Fields} (composedPath : CVal)
    (dirFiles : List String) (hb : flookupC c "batch" = some (.node gs)) :
    initializeConfigs c composedPath dirFiles =
      (setNested (outputDirPatched (pathPatched c composedPath)) "batch" "batch_num"
        (.vint (init_batch_num (getOBatchNum gs)
          (countConfigFiles (getBatchNameF gs) (getConfigYamlF gs) dirFiles)
          (getResumeLatestF gs))),
       getBatchNameF gs,
       init_batch_num (getOBatchNum gs)
         (countConfigFiles (getBatchNameF gs) (getConfigYamlF gs) dirFiles)
         (getResumeLatestF gs)) := by
  have hb1 : flookupC (pathPatched c composedPath) "batch" = some (.node gs) :=
    (flookupC_pathPatched_ne c composedPath (by decide)).trans hb
  have hb2 := batchNodeOf_outputDirPatched hb1
  simp only [initializeConfigs]
  rw [hb2, getOBatchNum_setField_ne _ _ (by decide),
    getBatchNameF_setField_ne _ _ (by decide),
    getResumeLatestF_setField_ne _ _ (by decide),
    getConfigYamlF_setField_ne _ _ (by decide)]

/- ------------------------------------------------------------------ -/
/- Claim theorems.                                                     -/
/- ------------------------------------------------------------------ -/

/-- C1: constructing a `BaseBatchConfig` with `batch_num` unset derives it
    from the number `N` of config files matching the glob
    `"{batch_name}(*)_config.yaml"` in the config directory: `N - 1` when
    `resume_latest` is set, else `N` — including the `N = 0`,
    `resume_latest` case, which yields `-1`. -/
theorem c1_init_batch_num_counts (inp : BatchInput) (dirFiles : List String)
    (randDraw : Nat) (N : Nat) (h1 : inp.batch_num = none)
    (h2 : (dirFiles.filter (globConfigMatch inp.batch_name inp.config_yaml)).length = N) :
    (mkBaseBatchConfig inp dirFiles randDraw).batch_num =
      if inp.resume_latest then (N : Int) - 1 else (N : Int) := by
  subst h2
  simp [mkBaseBatchConfig, init_batch_num, countConfigFiles, h1]

/-- C1 witness: two matching config files and one unrelated file; with
    `resume_latest` unset the derived batch number is the count 2, and on
    the same directory a `resume_latest` construction yields 1. -/
theorem c1_init_batch_num_counts_witness :
    ((mkBaseBatchConfig { batch_name := "exp1" }
        ["exp1(0)_config.yaml", "exp1(1)_config.yaml", "notes.txt"] 7).batch_num =
      if ({ batch_name := "exp1" } : BatchInput).resume_latest
      then (2 : Int) - 1 else (2 : Int))
    ∧ ((mkBaseBatchConfig { batch_name := "exp1", resume_latest := true }
        ["exp1(0)_config.yaml", "exp1(1)_config.yaml", "notes.txt"] 7).batch_num =
      if ({ batch_name := "exp1", resume_latest := true } : BatchInput).resume_latest
      then (2 : Int) - 1 else (2 : Int)) :=
  ⟨c1_init_batch_num_counts _ _ 7 2 rfl (by decide),
   c1_init_batch_num_counts _ _ 7 2 rfl (by decide)⟩

/-- C4 (amended): the resolved seed equals the explicitly given seed
    exactly when `random_seed` is false, a seed is given and it is
    non-negative; in every other case the seed is the fresh
    `random.randint(0, 2**32 - 1)` draw, which lies in the closed range
    `[0, 2**32 - 1]` (the Python `randint` upper bound is inclusive, so
    the range is `[0, 2**32)`, not the claimed `[0, 2**32 - 1)`). -/
theorem c4_seed_resolution (inp : BatchInput) (dirFiles : List String)
    (randDraw : Nat) (s : Int) (hr : randDraw ≤ 2 ^ 32 - 1) :
    (inp.random_seed = false → inp.seed = some s → 0 ≤ s →
      (mkBaseBatchConfig inp dirFiles randDraw).seed = s)
    ∧ ((inp.random_seed || inp.seed.isNone || decide (inp.seed.getD 0 < 0)) = true →
      (mkBaseBatchConfig inp dirFiles randDraw).seed = (randDraw : Int)
      ∧ 0 ≤ (mkBaseBatchConfig inp dirFiles randDraw).seed
      ∧ (mkBaseBatchConfig inp dirFiles randDraw).seed ≤ 2 ^ 32 - 1) := by
  constructor
  · intro h1 h2 h3
    simp [mkBaseBatchConfig, validate_seed, h1, h2, not_lt.mpr h3]
  · intro h
    have hseed : (mkBaseBatchConfig inp dirFiles randDraw).seed = (randDraw : Int) := by
      simp only [mkBaseBatchConfig, validate_seed, h, if_pos]
    refine ⟨hseed, ?_, ?_⟩ <;> rw [hseed] <;> omega

/-- C4 witness: `random_seed = false, seed = 42` resolves to 42; with the
    defaults (`random_seed = true`) the draw 5 is taken and lies in the
    closed range. -/
theorem c4_seed_resolution_witness :
    (mkBaseBatchConfig { batch_name := "exp1", random_seed := false, seed := some 42 }
        [] 7).seed = 42
    ∧ (mkBaseBatchConfig { batch_name := "exp1" } [] 5).seed = (5 : Int)
    ∧ 0 ≤ (mkBaseBatchConfig { batch_name := "exp1" } [] 5).seed
    ∧ (mkBaseBatchConfig { batch_name := "exp1" } [] 5).seed ≤ 2 ^ 32 - 1 :=
  ⟨(c4_seed_resolution _ [] 7 42 (by norm_num)).1 rfl rfl (by norm_num),
   (c4_seed_resolution { batch_name := "exp1" } [] 5 0 (by norm_num)).2 rfl⟩

/-- C4 counterexample: `random.randint(0, 2**32 - 1)` is inclusive, so the
    draw `2**32 - 1` is possible and the resolved seed then falls outside
    the claimed half-open range `[0, 2**32 - 1)`. -/
theorem c4_seed_range_counterexample :
    (2 ^ 32 - 1 : Nat) ≤ 2 ^ 32 - 1
    ∧ (mkBaseBatchConfig { batch_name := "exp1" } [] (2 ^ 32 - 1)).seed
        = (2 ^ 32 - 1 : Int)
    ∧ ¬ (mkBaseBatchConfig { batch_name := "exp1" } [] (2 ^ 32 - 1)).seed
        < (2 ^ 32 - 1 : Int) := by
  refine ⟨le_refl _, ?_, ?_⟩ <;>
    simp [mkBaseBatchConfig, validate_seed]

/-- C10: when `output_suffix` is falsy and the extension is `None` or
    empty, `output_file` is `"{batch_name}({batch_num})."` with the
    trailing separator dot; and the validated extension always equals the
    given one with all leading and trailing dots stripped. -/
theorem c10_output_file_trailing_dot (inp : BatchInput) (dirFiles : List String)
    (randDraw : Nat) :
    (pyTruthyS inp.output_suffix = false →
      (inp.output_extention = none ∨ inp.output_extention = some "") →
      BaseBatchConfig.output_file (mkBaseBatchConfig inp dirFiles randDraw) =
        inp.batch_name ++ "(" ++
          toString (mkBaseBatchConfig inp dirFiles randDraw).batch_num ++ ")" ++ ".")
    ∧ (∀ e, inp.output_extention = some e →
        (mkBaseBatchConfig inp dirFiles randDraw).output_extention = stripDots e) := by
  constructor
  · intro h1 h2
    have hext : validate_output_extention inp.output_extention = "" := by
      rcases h2 with h2 | h2 <;> simp [validate_output_extention, h2, pyTruthyS]
    simp [BaseBatchConfig.output_file, mkBaseBatchConfig, h1, hext, filePfx,
      String.append_assoc]
  · intro e he
    by_cases h : e = ""
    · subst h
      simp [mkBaseBatchConfig, validate_output_extention, he, pyTruthyS, stripDots]
    · simp [mkBaseBatchConfig, validate_output_extention, he, pyTruthyS, h]

/-- C10 witness: no suffix and empty extension gives `"exp1(0)."`; the
    extension `".tar.gz."` is stripped to `"tar.gz"`. -/
theorem c10_output_file_trailing_dot_witness :
    BaseBatchConfig.output_file (mkBaseBatchConfig { batch_name := "exp1" } [] 5) =
      "exp1" ++ "(" ++
        toString (mkBaseBatchConfig { batch_name := "exp1" } [] 5).batch_num ++ ")" ++ "."
    ∧ (mkBaseBatchConfig { batch_name := "exp1", output_extention := some ".tar.gz." }
        [] 5).output_extention = stripDots ".tar.gz." :=
  ⟨(c10_output_file_trailing_dot { batch_name := "exp1" } [] 5).1 rfl (Or.inr rfl),
   (c10_output_file_trailing_dot _ [] 5).2 ".tar.gz." rfl⟩

/-- C5: when the split's target output file exists and `overwrite` is
    false, `_process_split` never invokes the external loader, and it
    reloads the existing output file exactly when statistics computation
    or text preprocessing was requested. -/
theorem c5_skip_fetch_when_exists (cfg : BuilderCfg) (sc : SplitCase)
    (tf pf : DF → DF) (h1 : sc.output_file_exists = true)
    (h2 : cfg.overwrite = false) :
    Ev.loaderInvoked ∉ (processSplit cfg sc tf pf).1
    ∧ (Ev.reloadedOutput ∈ (processSplit cfg sc tf pf).1
        ↔ (cfg.calculate_stats || cfg.preprocess_text) = true) := by
  obtain ⟨ov, cs, pt, si, tn, pn, smd, ssa, sdf⟩ := cfg
  obtain ⟨ex, lr, rr⟩ := sc
  simp only at h1 h2
  subst h1
  subst h2
  cases cs <;> cases pt <;> cases si <;> cases pn <;> cases ssa <;> cases sdf <;>
    simp [processSplit, finishSplit]

/-- C5 witness: output file present, `overwrite` false, statistics
    requested: the loader event is absent and the reload event present. -/
theorem c5_skip_fetch_when_exists_witness :
    Ev.loaderInvoked ∉ (processSplit
        ⟨false, true, false, true, false, false, false, false, true⟩
        ⟨true, none, ⟨0⟩⟩ id id).1
    ∧ (Ev.reloadedOutput ∈ (processSplit
        ⟨false, true, false, true, false, false, false, false, true⟩
        ⟨true, none, ⟨0⟩⟩ id id).1
      ↔ (true || false) = true) :=
  c5_skip_fetch_when_exists _ _ id id rfl rfl

/-- C6: in the fetch branch, a `None` result from the external loader
    raises `ValueError("dataframe is None")` immediately: the split's
    trace is exactly the loader invocation, so no transform, persistence
    or statistics step ran and nothing was written for that split. -/
theorem c6_loader_none_raises (cfg : BuilderCfg) (sc : SplitCase)
    (tf pf : DF → DF) (h1 : (!sc.output_file_exists || cfg.overwrite) = true)
    (h2 : sc.loaderResult = none) :
    processSplit cfg sc tf pf = ([Ev.loaderInvoked], some "dataframe is None")
    ∧ Ev.processApplied ∉ (processSplit cfg sc tf pf).1
    ∧ Ev.transformApplied ∉ (processSplit cfg sc tf pf).1 := by
  have h : processSplit cfg sc tf pf = ([Ev.loaderInvoked], some "dataframe is None") := by
    simp [processSplit, h1, h2]
  refine ⟨h, ?_, ?_⟩ <;> rw [h] <;> decide

/-- C6 witness: a missing output file with a `None` loader result raises
    with a loader-only trace. -/
theorem c6_loader_none_raises_witness :
    processSplit ⟨false, true, true, true, true, true, true, true, true⟩
        ⟨false, none, ⟨0⟩⟩ id id
      = ([Ev.loaderInvoked], some "dataframe is None") :=
  (c6_loader_none_raises ⟨false, true, true, true, true, true, true, true, true⟩
    ⟨false, none, ⟨0⟩⟩ id id rfl rfl).1

/-- C8: `Dataset.load` is idempotent: after a first `load` the `_loaded`
    flag is set, so a second `load` returns the state unchanged and
    performs zero underlying `load_dataframe` reads. -/
theorem c8_dataset_load_idempotent (st : DatasetState)
    (d1 : List (String × String)) (r1 : String → DF) (p1 : Bool) (q1 : DF → DF)
    (d2 : List (String × String)) (r2 : String → DF) (p2 : Bool) (q2 : DF → DF) :
    datasetLoad (datasetLoad st d1 r1 p1 q1).1 d2 r2 p2 q2 =
      ((datasetLoad st d1 r1 p1 q1).1, 0) := by
  cases h : st.loadedFlag <;> simp [datasetLoad, h]

/-- C9 (amended): `PathConfig.batch_dir` equals `root/outputs/batch_name`;
    the `BaseBatchConfig.batch_dir` and `config_dir` resolutions create
    the resolved directory tree idempotently, so those directories exist
    after resolution; but the `PathConfig.batch_dir` resolution itself
    performs no directory creation. -/
theorem c9_batch_dir_resolution (p : PathConfigM) (b : BaseBatchConfig) (fs : FS) :
    PathConfigM.batch_dir p = [p.root, "outputs", p.batch_name]
    ∧ (BaseBatchConfig.batch_dirFS b fs).1 ∈ (BaseBatchConfig.batch_dirFS b fs).2
    ∧ BaseBatchConfig.batch_dirFS b (BaseBatchConfig.batch_dirFS b fs).2
        = BaseBatchConfig.batch_dirFS b fs
    ∧ (BaseBatchConfig.config_dirFS b fs).1 ∈ (BaseBatchConfig.config_dirFS b fs).2
    ∧ BaseBatchConfig.config_dirFS b (BaseBatchConfig.config_dirFS b fs).2
        = BaseBatchConfig.config_dirFS b fs
    ∧ (PathConfigM.batch_dirFS p fs).2 = fs := by
  refine ⟨rfl, mem_mkdirParents_self fs _, ?_, ?_, ?_, rfl⟩
  · simp [BaseBatchConfig.batch_dirFS, mkdirParents_idem]
  · simp only [BaseBatchConfig.config_dirFS, BaseBatchConfig.batch_dirFS]
    exact mem_mkdirParents_self _ _
  · simp only [BaseBatchConfig.config_dirFS, BaseBatchConfig.batch_dirFS]
    rw [mkdirParents_of_all_mem
        (fun q hq => mem_mkdirParents_of_mem _ (ancestors_mem_mkdirParents fs _ q hq)),
      mkdirParents_of_all_mem (ancestors_mem_mkdirParents _ _)]

/-- C9 counterexample: the `PathConfig.batch_dir` resolution cited by the
    claim computes the path but creates nothing: on an empty filesystem
    the resolved batch directory still does not exist afterwards. -/
theorem c9_pathconfig_no_mkdir_counterexample :
    (PathConfigM.batch_dirFS ⟨"t", "/r", "b"⟩ []).2 = []
    ∧ PathConfigM.batch_dir ⟨"t", "/r", "b"⟩ ∉ (PathConfigM.batch_dirFS ⟨"t", "/r", "b"⟩ []).2 :=
  ⟨rfl, by simp [PathConfigM.batch_dirFS]⟩

/-- C3: the retained baseline `_initial_config_` is never mutated: it
    equals the constructor arguments even after arbitrary live-tree
    mutations, every `load_config` call leaves it unchanged, and a reload
    by batch number is insensitive to prior ad-hoc live-tree mutations
    (it starts its merge from the baseline, not the mutated live tree). -/
theorem c3_baseline_immutable (args composedPath : CVal) (dirFiles : List String)
    (f : CVal → CVal) (st : ModelState) (nameArg : Option String)
    (bnArg : Option Int) (fileLookup : String → Int → Option CVal)
    (args2 cp2 : CVal) (d2 : List String) (bn : Int) :
    (mutateConfig (mkModelState args composedPath dirFiles) f).initial_config = args
    ∧ (load_config st nameArg bnArg fileLookup args2 cp2 d2).initial_config
        = st.initial_config
    ∧ load_config (mutateConfig st f) nameArg (some bn) fileLookup args2 cp2 d2
        = load_config st nameArg (some bn) fileLookup args2 cp2 d2 := by
  refine ⟨?_, rfl, rfl⟩
  simp [mutateConfig, mkModelState, deepCopy_eq]

/-- C7 (amended): with `batch_num` omitted, `load_config` operates on the
    current live snapshot merged with the caller-supplied overrides (every
    top-level key other than the patched `batch`, `name` and `path` keys
    is read from that merge), but the batch number is not left unchanged:
    the setter cascade resets it to `None` and the rebuilt
    `BaseBatchConfig` re-derives it from the config-file count (count - 1
    when `resume_latest` is set in the merged tree, else the count). -/
theorem c7_load_rederives_batch_num (st : ModelState) (args composedPath : CVal)
    (fileLookup : String → Int → Option CVal) (dirFiles : List String)
    (gs : Fields)
    (hb : flookupC (cmerge st.config args) "batch" = some (.node gs)) :
    ((load_config st none none fileLookup args composedPath dirFiles).batch_num
      = some (if getResumeLatestF gs
          then (countConfigFiles st.batch_name (getConfigYamlF gs) dirFiles : Int) - 1
          else (countConfigFiles st.batch_name (getConfigYamlF gs) dirFiles : Int)))
    ∧ ∀ k, k ≠ "batch" → k ≠ "name" → k ≠ "path" →
        flookupC (load_config st none none fileLookup args composedPath dirFiles).config k
          = flookupC (cmerge st.config args) k := by
  have hb2 : flookupC (setNested (cmerge st.config args) "batch" "batch_num"
      (ovalInt none)) "batch"
      = some (.node (setField gs "batch_num" (ovalInt none))) :=
    flookupC_setNested_self _ _ hb
  have hb3 : flookupC (setNested (setNested (cmerge st.config args) "batch"
      "batch_num" (ovalInt none)) "batch" "batch_name" (.vstr st.batch_name)) "batch"
      = some (.node (setField (setField gs "batch_num" (ovalInt none)) "batch_name"
          (.vstr st.batch_name))) :=
    flookupC_setNested_self _ _ hb2
  have hb4 : flookupC (setKeyC (setNested (setNested (cmerge st.config args) "batch"
      "batch_num" (ovalInt none)) "batch" "batch_name" (.vstr st.batch_name))
      "name" (.vstr st.batch_name)) "batch"
      = some (.node (setField (setField gs "batch_num" (ovalInt none)) "batch_name"
          (.vstr st.batch_name))) :=
    (flookupC_setKeyC_ne _ _ (by decide)).trans hb3
  have hic := initializeConfigs_parts composedPath dirFiles hb4
  have hg1 : getOBatchNum (setField (setField gs "batch_num" (ovalInt none))
      "batch_name" (.vstr st.batch_name)) = none := by
    rw [getOBatchNum_setField_ne _ _ (by decide)]
    unfold getOBatchNum
    rw [flookup_setField_self]
    rfl
  have hg2 : getBatchNameF (setField (setField gs "batch_num" (ovalInt none))
      "batch_name" (.vstr st.batch_name)) = st.batch_name := by
    unfold getBatchNameF
    rw [flookup_setField_self]
  have hg3 : getResumeLatestF (setField (setField gs "batch_num" (ovalInt none))
      "batch_name" (.vstr st.batch_name)) = getResumeLatestF gs := by
    rw [getResumeLatestF_setField_ne _ _ (by decide),
      getResumeLatestF_setField_ne _ _ (by decide)]
  have hg4 : getConfigYamlF (setField (setField gs "batch_num" (ovalInt none))
      "batch_name" (.vstr st.batch_name)) = getConfigYamlF gs := by
    rw [getConfigYamlF_setField_ne _ _ (by decide),
      getConfigYamlF_setField_ne _ _ (by decide)]
  constructor
  · simp only [load_config, Option.getD]
    rw [hic]
    simp only [hg1, hg2, hg3, hg4, init_batch_num]
  · intro k hk1 hk2 hk3
    simp only [load_config, Option.getD]
    rw [hic]
    simp only []
    rw [flookupC_setNested_ne _ _ _ hk1, flookupC_outputDirPatched_ne _ hk1,
      flookupC_pathPatched_ne _ _ hk3, flookupC_setKeyC_ne _ _ hk2,
      flookupC_setNested_ne _ _ _ hk1, flookupC_setNested_ne _ _ _ hk1]

/-- The batch sub-map of the concrete state used for claim C7. -/
def c7BatchFields : Fields :=
  .cons "batch_name" (.vstr "exp1") (.cons "batch_num" (.vint 0)
    (.cons "resume_latest" (.vbool false)
      (.cons "output_dir" (.vstr "/r/outputs") .nil)))

/-- A concrete `BaseBatchModel` state for claim C7: batch `exp1`, batch
    number 0, with a `version` key and a resolved `path`. -/
def c7State : ModelState :=
  { config := .node (.cons "name" (.vstr "exp1")
      (.cons "version" (.vstr "0.0.0")
        (.cons "path" (.node (.cons "root" (.vstr "/r") .nil))
          (.cons "batch" (.node c7BatchFields) .nil))))
    initial_config := .node (.cons "name" (.vstr "exp1")
      (.cons "version" (.vstr "0.0.0")
        (.cons "path" (.node (.cons "root" (.vstr "/r") .nil))
          (.cons "batch" (.node c7BatchFields) .nil))))
    batch_name := "exp1"
    batch_num := some 0 }

/-- C7 counterexample: on `c7State` (current batch number 0) with one
    persisted config file `exp1(0)_config.yaml` on disk, calling
    `load_config` with `batch_num` omitted re-derives the batch number
    from the config-file count and yields 1 — not the previous value 0,
    so the batch number is not left unchanged. -/
theorem c7_batch_num_not_preserved_counterexample :
    c7State.batch_num = some 0
    ∧ (load_config c7State none none (fun _ _ => none) (.node .nil) (.node .nil)
        ["exp1(0)_config.yaml"]).batch_num = some 1
    ∧ (load_config c7State none none (fun _ _ => none) (.node .nil) (.node .nil)
        ["exp1(0)_config.yaml"]).batch_num ≠ c7State.batch_num :=
  ⟨rfl, by decide, by decide⟩

/-- C7 witness: the amended statement at `c7State` with one persisted
    config file: the re-derived batch number equals the count, and the
    untouched `version` key is read from the live snapshot merged with
    the (empty) overrides. -/
theorem c7_load_rederives_batch_num_witness :
    ((load_config c7State none none (fun _ _ => none) (.node .nil) (.node .nil)
        ["exp1(0)_config.yaml"]).batch_num
      = some (if getResumeLatestF c7BatchFields
          then (countConfigFiles c7State.batch_name (getConfigYamlF c7BatchFields)
              ["exp1(0)_config.yaml"] : Int) - 1
          else (countConfigFiles c7State.batch_name (getConfigYamlF c7BatchFields)
              ["exp1(0)_config.yaml"] : Int)))
    ∧ flookupC (load_config c7State none none (fun _ _ => none) (.node .nil)
        (.node .nil) ["exp1(0)_config.yaml"]).config "version"
      = flookupC (cmerge c7State.config (.node .nil)) "version" :=
  ⟨(c7_load_rederives_batch_num c7State (.node .nil) (.node .nil) (fun _ _ => none)
      ["exp1(0)_config.yaml"] c7BatchFields (by decide)).1,
   (c7_load_rederives_batch_num c7State (.node .nil) (.node .nil) (fun _ _ => none)
      ["exp1(0)_config.yaml"] c7BatchFields (by decide)).2 "version"
      (by decide) (by decide) (by decide)⟩

/-- C2 (amended): a saved snapshot reloaded by `load_config(batch_name,
    batch_num)` on a fresh entity is recovered exactly — the reloaded
    snapshot restricted to the non-excluded top-level keys equals the
    saved document — provided no key present in the baseline's
    non-excluded part was deleted from the saved snapshot (formally:
    merging the saved document over the baseline's non-excluded projection
    returns the saved document unchanged) and the saved document records
    the same batch identity (`name`, `batch.batch_name`, `batch.batch_num`
    and the path-derived `batch.output_dir`) that is being requested. -/
theorem c2_save_load_roundtrip (st saver : ModelState) (bs ss gs_s ps : Fields)
    (r name : String) (bn : Int) (fileLookup : String → Int → Option CVal)
    (composedPath : CVal) (dirFiles : List String)
    (hbase : st.initial_config = .node bs)
    (hsaved : save_config saver = .node ss)
    (hndel : cmerge (restrictExclude (.node bs) defaultExclude) (.node ss) = .node ss)
    (hb : flookup "batch" ss = some (.node gs_s))
    (hbn : flookup "batch_num" gs_s = some (.vint bn))
    (hbname : flookup "batch_name" gs_s = some (.vstr name))
    (hname : flookup "name" ss = some (.vstr name))
    (hpath : flookup "path" bs = some (.node ps))
    (hroot : flookup "root" ps = some (.vstr r))
    (hod : flookup "output_dir" gs_s = some (.vstr (r ++ "/outputs")))
    (hfile : fileLookup name bn = some (save_config saver)) :
    restrictExclude (load_config st (some name) (some bn) fileLookup (.node .nil)
        composedPath dirFiles).config defaultExclude = save_config saver
    ∧ (load_config st (some name) (some bn) fileLookup (.node .nil)
        composedPath dirFiles).batch_num = some bn := by
  -- the saved document carries no excluded top-level keys
  have hkeys : ∀ k ∈ fkeys ss, k ∉ defaultExclude := by
    intro k hk
    unfold save_config at hsaved
    cases hc : saver.config with
    | node fs =>
      rw [hc] at hsaved
      simp only [restrictExclude] at hsaved
      have hss : filterExcl fs defaultExclude = ss := by injection hsaved
      exact fkeys_filterExcl_not_mem fs defaultExclude (hss ▸ hk)
    | vstr s => rw [hc] at hsaved; simp [restrictExclude] at hsaved
    | vint n => rw [hc] at hsaved; simp [restrictExclude] at hsaved
    | vbool b => rw [hc] at hsaved; simp [restrictExclude] at hsaved
    | vnone => rw [hc] at hsaved; simp [restrictExclude] at hsaved
  -- the merged starting tree and its batch map
  obtain ⟨gsM, hbM, hgsM⟩ := @lookup_batch_merge bs ss gs_s "batch" hb
  have hbnM : flookup "batch_num" gsM = some (.vint bn) :=
    hgsM "batch_num" _ hbn (fun x => cmerge_vint x bn)
  have hbnameM : flookup "batch_name" gsM = some (.vstr name) :=
    hgsM "batch_name" _ hbname (fun x => cmerge_vstr x name)
  have hodM : flookup "output_dir" gsM = some (.vstr (r ++ "/outputs")) :=
    hgsM "output_dir" _ hod (fun x => cmerge_vstr x _)
  have hnameM : flookupC (cmerge (.node bs) (.node ss)) "name" = some (.vstr name) :=
    flookupC_merge_right_leaf hname (fun x => cmerge_vstr x name)
  have hpss : flookup "path" ss = none :=
    flookup_eq_none_of_not_mem_fkeys (fun hmem => (hkeys "path" hmem) (by decide))
  have hpathM : flookupC (cmerge (.node bs) (.node ss)) "path" = some (.node ps) := by
    rw [flookupC_merge_right_none hpss, hpath]
  -- every patch of the setter cascade is an identity on the merged tree
  have hc1 : cmerge (cmerge (.node bs) (.node ss)) (.node .nil)
      = cmerge (.node bs) (.node ss) := cmerge_node_nil _
  have hc2 : setNested (cmerge (.node bs) (.node ss)) "batch" "batch_num"
      (ovalInt (some bn)) = cmerge (.node bs) (.node ss) :=
    setNested_self hbM hbnM
  have hc3 : setNested (cmerge (.node bs) (.node ss)) "batch" "batch_name"
      (.vstr name) = cmerge (.node bs) (.node ss) :=
    setNested_self hbM hbnameM
  have hc4 : setKeyC (cmerge (.node bs) (.node ss)) "name" (.vstr name)
      = cmerge (.node bs) (.node ss) := setKeyC_self hnameM
  have hpp : pathPatched (cmerge (.node bs) (.node ss)) composedPath
      = cmerge (.node bs) (.node ss) := by
    unfold pathPatched
    rw [hpathM]
    simp
  have hroot2 : pathRootOf (cmerge (.node bs) (.node ss)) = r := by
    unfold pathRootOf
    rw [hpathM]
    simp only [hroot]
  have hop : outputDirPatched (cmerge (.node bs) (.node ss))
      = cmerge (.node bs) (.node ss) := by
    unfold outputDirPatched
    rw [hroot2]
    exact setNested_self hbM hodM
  have hgbn : getOBatchNum gsM = some bn := by
    unfold getOBatchNum
    rw [hbnM]
  have hic := initializeConfigs_parts composedPath dirFiles hbM
  rw [hpp, hop, hgbn] at hic
  simp only [init_batch_num] at hic
  rw [setNested_self hbM hbnM] at hic
  -- the whole call collapses to the merged tree with identity `bn`
  have hload : load_config st (some name) (some bn) fileLookup (.node .nil)
      composedPath dirFiles =
      { config := cmerge (.node bs) (.node ss),
        initial_config := st.initial_config,
        batch_name := name, batch_num := some bn } := by
    simp only [load_config, Option.getD, hfile, hsaved, hbase]
    rw [hc1, hc2, hc3, hc4, hic]
  rw [hload, hsaved]
  exact ⟨by rw [restrict_merge bs ss defaultExclude hkeys, hndel], rfl⟩

/-- The batch sub-map of the concrete snapshots used for claim C2. -/
def c2BatchFields : Fields :=
  .cons "batch_name" (.vstr "b") (.cons "batch_num" (.vint 0)
    (.cons "resume_latest" (.vbool false)
      (.cons "output_dir" (.vstr "/r/outputs") .nil)))

/-- The concrete baseline tree for the claim C2 witness. -/
def c2Base : CVal :=
  .node (.cons "name" (.vstr "b")
    (.cons "path" (.node (.cons "root" (.vstr "/r") .nil))
      (.cons "batch" (.node c2BatchFields) .nil)))

/-- The saving entity for the claim C2 witness (live tree = baseline). -/
def c2Saver : ModelState :=
  { config := c2Base, initial_config := c2Base,
    batch_name := "b", batch_num := some 0 }

/-- The fresh entity for the claim C2 witness (same baseline). -/
def c2Fresh : ModelState :=
  { config := c2Base, initial_config := c2Base,
    batch_name := "b", batch_num := some 0 }

/-- C2 witness: a concrete save/load pair on batch `("b", 0)`: reloading
    the saved document on the fresh entity recovers it exactly on the
    non-excluded keys, and the batch number is restored. -/
theorem c2_save_load_roundtrip_witness :
    restrictExclude (load_config c2Fresh (some "b") (some 0)
        (fun _ _ => some (save_config c2Saver)) (.node .nil) (.node .nil) []).config
        defaultExclude = save_config c2Saver
    ∧ (load_config c2Fresh (some "b") (some 0)
        (fun _ _ => some (save_config c2Saver)) (.node .nil) (.node .nil) []).batch_num
      = some 0 :=
  c2_save_load_roundtrip c2Fresh c2Saver
    (.cons "name" (.vstr "b") (.cons "path" (.node (.cons "root" (.vstr "/r") .nil))
      (.cons "batch" (.node c2BatchFields) .nil)))
    (.cons "name" (.vstr "b") (.cons "batch" (.node c2BatchFields) .nil))
    c2BatchFields
    (.cons "root" (.vstr "/r") .nil)
    "/r" "b" 0 (fun _ _ => some (save_config c2Saver)) (.node .nil) []
    rfl (by decide) (by decide) (by decide) (by decide) (by decide) (by decide)
    (by decide) (by decide) (by decide) rfl

/-- The baseline of the C2 counterexample: it carries a nested map
    `extra = {x: 1}`. -/
def c2DelBase : CVal :=
  .node (.cons "name" (.vstr "b")
    (.cons "path" (.node (.cons "root" (.vstr "/r") .nil))
      (.cons "batch" (.node c2BatchFields)
        (.cons "extra" (.node (.cons "x" (.vint 1) .nil)) .nil))))

/-- The saving entity of the C2 counterexample: before saving, the live
    tree was mutated by deleting the nested key `extra.x`. -/
def c2DelSaver : ModelState :=
  { config := .node (.cons "name" (.vstr "b")
      (.cons "path" (.node (.cons "root" (.vstr "/r") .nil))
        (.cons "batch" (.node c2BatchFields)
          (.cons "extra" (.node .nil) .nil))))
    initial_config := c2DelBase, batch_name := "b", batch_num := some 0 }

/-- The fresh entity of the C2 counterexample (unmutated baseline). -/
def c2DelFresh : ModelState :=
  { config := c2DelBase, initial_config := c2DelBase,
    batch_name := "b", batch_num := some 0 }

/-- C2 counterexample: the round-trip equality fails as stated: the saved
    snapshot had the nested key `extra.x` deleted, but `load_config`
    merges the saved document over the baseline, which resurrects
    `extra.x = 1`, so the reloaded snapshot restricted to the non-excluded
    top-level keys is not structurally equal to the saved one. -/
theorem c2_save_load_roundtrip_counterexample :
    flookupC (save_config c2DelSaver) "extra" = some (.node .nil)
    ∧ flookupC (restrictExclude (load_config c2DelFresh (some "b") (some 0)
        (fun _ _ => some (save_config c2DelSaver)) (.node .nil) (.node .nil) []).config
        defaultExclude) "extra" = some (.node (.cons "x" (.vint 1) .nil))
    ∧ restrictExclude (load_config c2DelFresh (some "b") (some 0)
        (fun _ _ => some (save_config c2DelSaver)) (.node .nil) (.node .nil) []).config
        defaultExclude ≠ save_config c2DelSaver :=
  ⟨by decide, by decide, by decide⟩

end Ekorpkit
